import Mathlib

/-!
Shallow embedding of the urology-review-system core logic:
the applicant distribution engine, the review aggregation engine
(total score, FinalSelection stats recompute) and the progress /
statistics engine, translated from
`backend/src/services/reviewService.ts`,
`backend/src/services/progressService.ts`,
`backend/src/routes/reviews.ts` and the SQL schema
(table `urology_reviews`, generated column `total_score`).

All queries in the source are scoped to the single fixed tenant
value `site_name = "urology_review"`; the embedding models the
one-tenant slice, so the constant tenant filter is dropped.
-/

namespace Urology

/-- Frontend applicant format `[external_id, name, category, details]`
(backend `types.ts`, `type Applicant = [string, string, string, string]`). -/
structure Applicant where
  external_id : String
  name : String
  category : String
  details : String
deriving DecidableEq, Repr

/-- The `regular`-category filter used by `getApplicantDistribution`
(`frontendApplicants.filter` keeping rows whose third slot is the string regular). -/
def regularApplicants (applicants : List Applicant) : List Applicant :=
  applicants.filter (fun a => a.category == "regular")

/-- Function `ApplicantService.getApplicantDistribution` (reviewService.ts 610-652),
modelled as the association list of writes the `forEach` performs on the
returned object, in write order:

```
const regularApplicants = frontendApplicants.filter(app => app[2] === "regular");
if (reviewers && reviewers.length > 0 && regularApplicants.length > 0) {
    reviewers.forEach((reviewer, index) => {
        distribution[reviewer.name] = regularApplicants.filter((_, appIndex) =>
            appIndex % reviewers.length === index);
    });
} return distribution;
```

When the guard fails the object is returned untouched, i.e. empty. -/
def getApplicantDistribution (applicants : List Applicant) (reviewers : List String) :
    List (String × List Applicant) :=
  let regularApps := regularApplicants applicants
  if 0 < reviewers.length ∧ 0 < regularApps.length then
    reviewers.enum.map (fun p =>
      (p.2, (regularApps.enum.filter (fun q => q.1 % reviewers.length == p.1)).map Prod.snd))
  else []

/-- Reading a key of the returned JS object: the last write to that key
wins, absent keys give none. -/
def distLookup (d : List (String × List Applicant)) (name : String) :
    Option (List Applicant) :=
  (d.reverse.find? (fun p => p.1 == name)).map Prod.snd

lemma sum_indicator_range (n k : ℕ) :
    ((List.range n).map (fun j => if k == j then 1 else 0)).sum
      = if k < n then 1 else 0 := by
  induction n with
  | zero => simp
  | succ n ih =>
    rw [List.range_succ, List.map_append, List.sum_append]
    simp only [List.map_cons, List.map_nil, List.sum_cons, List.sum_nil, ih]
    by_cases h : k < n
    · have hne : (k == n) = false := by simp; omega
      have : k < n + 1 := by omega
      simp [hne, h, this]
    · by_cases h2 : k = n
      · subst h2
        simp [h]
      · have hne : (k == n) = false := by simp [h2]
        have : ¬ k < n + 1 := by omega
        simp [hne, h, this]

lemma sum_countP_residues {β : Type} (n : ℕ) (hn : 0 < n)
    (p : ℕ × β → Bool) (e : List (ℕ × β)) :
    ((List.range n).map (fun j => e.countP (fun q => p q && (q.1 % n == j)))).sum
      = e.countP p := by
  induction e with
  | nil => simp
  | cons x e ih =>
    have hcons : (fun j => List.countP (fun q => p q && (q.1 % n == j)) (x :: e))
        = fun j => List.countP (fun q => p q && (q.1 % n == j)) e
            + if (p x && (x.1 % n == j)) = true then 1 else 0 :=
      funext fun j => List.countP_cons _ _ _
    rw [hcons, List.sum_map_add, ih, List.countP_cons]
    congr 1
    cases hp : p x with
    | false => simp [hp]
    | true =>
      have hk : x.1 % n < n := Nat.mod_lt _ hn
      simpa [hp, hk] using sum_indicator_range n (x.1 % n)

lemma join_residue_classes_perm {β : Type} [DecidableEq β]
    (l : List β) (n : ℕ) (hn : 0 < n) :
    (((List.range n).map
        (fun j => (l.enum.filter (fun q => q.1 % n == j)).map Prod.snd)).flatten).Perm l := by
  rw [List.perm_iff_count]
  intro a
  rw [List.count_flatten, List.map_map]
  have hcomp : (List.count a ∘ fun j => (l.enum.filter (fun q => q.1 % n == j)).map Prod.snd)
      = fun j => l.enum.countP (fun q => (q.2 == a) && (q.1 % n == j)) := by
    funext j
    simp only [Function.comp_apply]
    rw [List.count_eq_countP, List.countP_map, List.countP_filter]
    rfl
  rw [hcomp, sum_countP_residues n hn]
  conv_rhs => rw [← List.enum_map_snd l]
  rw [List.count_eq_countP, List.countP_map]
  rfl

/-- The round-robin body of `getApplicantDistribution`: the list written for
the reviewer at position j. -/
lemma getApplicantDistribution_get (applicants : List Applicant)
    (reviewers : List String) (hrev : reviewers ≠ [])
    (hreg : regularApplicants applicants ≠ []) (j : ℕ) (hj : j < reviewers.length) :
    ∃ h2 : j < (getApplicantDistribution applicants reviewers).length,
      (getApplicantDistribution applicants reviewers).get ⟨j, h2⟩
        = (reviewers.get ⟨j, hj⟩,
           ((regularApplicants applicants).enum.filter
              (fun q => q.1 % reviewers.length == j)).map Prod.snd) := by
  have hcond : 0 < reviewers.length ∧ 0 < (regularApplicants applicants).length :=
    ⟨List.length_pos.mpr hrev, List.length_pos.mpr hreg⟩
  have hd : getApplicantDistribution applicants reviewers
      = reviewers.enum.map (fun p =>
          (p.2, ((regularApplicants applicants).enum.filter
              (fun q => q.1 % reviewers.length == p.1)).map Prod.snd)) := by
    unfold getApplicantDistribution
    simp [hcond]
  have hlen : (getApplicantDistribution applicants reviewers).length = reviewers.length := by
    rw [hd]; simp
  refine ⟨hlen ▸ hj, ?_⟩
  have h2 : j < (getApplicantDistribution applicants reviewers).length := hlen ▸ hj
  have hje : j < reviewers.enum.length := by simpa using hj
  calc (getApplicantDistribution applicants reviewers).get ⟨j, h2⟩
      = (getApplicantDistribution applicants reviewers)[j] := rfl
    _ = (reviewers.get ⟨j, hj⟩,
          ((regularApplicants applicants).enum.filter
            (fun q => q.1 % reviewers.length == j)).map Prod.snd) := by
        simp only [hd, List.getElem_map, List.getElem_enum]
        rfl

/-- The seven nullable 1-5 sub-scores of a review (columns of
`urology_reviews`; fields of `DatabaseReview` and the request types). -/
structure ReviewScores where
  preference : Option ℤ := none
  pressure : Option ℤ := none
  underserved : Option ℤ := none
  leadership : Option ℤ := none
  academic : Option ℤ := none
  research : Option ℤ := none
  personal : Option ℤ := none
deriving DecidableEq, Repr

/-- Function `ReviewService.calculateTotalScore` (reviewService.ts 219-231):
collects the seven sub-scores with null replaced by 0 and reduces with
addition from 0. -/
def calculateTotalScore (review : ReviewScores) : ℤ :=
  let scores := [review.preference.getD 0, review.pressure.getD 0,
    review.underserved.getD 0, review.leadership.getD 0,
    review.academic.getD 0, review.research.getD 0, review.personal.getD 0]
  scores.foldl (· + ·) 0

/-- The generated `total_score` column of `urology_reviews`:
`COALESCE(preference,0) + COALESCE(pressure,0) + ... + COALESCE(personal,0)`. -/
def dbTotalScore (review : ReviewScores) : ℤ :=
  review.preference.getD 0 + review.pressure.getD 0 + review.underserved.getD 0
    + review.leadership.getD 0 + review.academic.getD 0 + review.research.getD 0
    + review.personal.getD 0

/-- A row of `urology_reviews` (one fixed tenant, so `site_name` is
dropped; `total_score` is the generated column `dbTotalScore`, computed by
function below, and `id`/timestamps play no role in the claims). -/
structure ReviewRow where
  applicant_id : String
  reviewer_name : String
  scores : ReviewScores
  notes : Option String := none
  decision : Option String := none
deriving DecidableEq, Repr

/-- The stored generated column `total_score` of a review row: it is
always present (COALESCE never yields null). -/
def totalScore (r : ReviewRow) : ℤ := dbTotalScore r.scores

/-- A row of `urology_final_selections` (`average_score` is NUMERIC; the
service always writes `parseFloat(averageScore.toFixed(2))`). -/
structure FinalSelectionRow where
  applicant_id : String
  admin_decision : String
  average_score : ℚ
  reviewer_count : ℕ
deriving DecidableEq, Repr

/-- The single-tenant slice of the persistence store that the services
query: the four tables, each as a list of rows in insertion order. -/
structure Store where
  applicants : List Applicant
  reviewers : List String
  reviews : List ReviewRow
  finalSelections : List FinalSelectionRow
deriving DecidableEq, Repr

/-- Function `ReviewService.getReviewsForApplicant`: all review rows of one
applicant. -/
def getReviewsForApplicant (s : Store) (applicantId : String) : List ReviewRow :=
  s.reviews.filter (fun r => r.applicant_id == applicantId)

/-- Function `ReviewService.getReview`: the unique row for an
(applicant, reviewer) pair, none when absent. -/
def getReview (s : Store) (applicantId reviewerName : String) : Option ReviewRow :=
  s.reviews.find? (fun r => r.applicant_id == applicantId && r.reviewer_name == reviewerName)

/-- Function `ReviewService.getFinalSelection`: the unique FinalSelection row of an
applicant, none when absent. -/
def getFinalSelection (s : Store) (applicantId : String) : Option FinalSelectionRow :=
  s.finalSelections.find? (fun f => f.applicant_id == applicantId)

/-- Rounding as `parseFloat(x.toFixed(2))`: rounding to two decimal places, ties away
from zero upward (the ECMA toFixed picks the larger candidate on ties). -/
def roundTo2 (q : ℚ) : ℚ := (⌊q * 100 + 1 / 2⌋ : ℚ) / 100

/-- The arithmetic mean of the stored `total_score` values of a list of
reviews, 0 when there are none (the quantity the spec calls
`average_score`). -/
def specMean (rs : List ReviewRow) : ℚ :=
  if rs = [] then 0 else (rs.map (fun r => (totalScore r : ℚ))).sum / rs.length

/-- Function `ReviewService.updateFinalSelectionStats` (reviewService.ts 303-340),
successful path: recompute the average of `total_score` over the
reviews of the applicant (`total_score` is a generated, never-null column, so
the non-null filter in the source keeps every row), round it as
`parseFloat(averageScore.toFixed(2))`, then update the existing
FinalSelection row or insert a fresh one with `admin_decision` Pending. -/
def updateFinalSelectionStats (s : Store) (applicantId : String) : Store :=
  let reviews := getReviewsForApplicant s applicantId
  let averageScore : ℚ :=
    if 0 < reviews.length
    then (reviews.map (fun r => (totalScore r : ℚ))).sum / reviews.length
    else 0
  let stored := roundTo2 averageScore
  match getFinalSelection s applicantId with
  | some _ =>
      { s with finalSelections := s.finalSelections.map (fun f =>
          if f.applicant_id == applicantId then
            { f with average_score := stored, reviewer_count := reviews.length }
          else f) }
  | none =>
      { s with finalSelections :=
          s.finalSelections ++ [⟨applicantId, "Pending", stored, reviews.length⟩] }

/-- The recompute step as the callers run it: its body is wrapped in a
try/catch whose catch only logs, so an upstream failure (modelled by the
flag) leaves the store unchanged and control returns normally either
way. -/
def updateFinalSelectionStatsRun (recomputeFails : Bool) (s : Store)
    (applicantId : String) : Store :=
  if recomputeFails then s else updateFinalSelectionStats s applicantId

/-- CHECK constraint `score >= 1 AND score <= 5` on a nullable sub-score
column. -/
def scoreInRange (x : Option ℤ) : Bool :=
  match x with
  | none => true
  | some v => decide (1 ≤ v) && decide (v ≤ 5)

/-- All seven sub-score CHECK constraints of `urology_reviews`. -/
def scoresOk (sc : ReviewScores) : Bool :=
  scoreInRange sc.preference && scoreInRange sc.pressure
    && scoreInRange sc.underserved && scoreInRange sc.leadership
    && scoreInRange sc.academic && scoreInRange sc.research
    && scoreInRange sc.personal

/-- CHECK constraint on the `decision` column: one of the three enum
values or null. -/
def decisionOk (d : Option String) : Bool :=
  match d with
  | none => true
  | some v => v == "Definitely Interview" || v == "Maybe" || v == "Do Not Interview"

/-- Body of `CreateReviewRequest` (ids plus the inserted column values). -/
structure CreateReviewRequest where
  applicant_id : String
  reviewer_name : String
  scores : ReviewScores
  notes : Option String := none
  decision : Option String := none
deriving DecidableEq, Repr

/-- The row the insert in `ReviewService.createReview` writes. -/
def reviewRowOfRequest (req : CreateReviewRequest) : ReviewRow :=
  ⟨req.applicant_id, req.reviewer_name, req.scores, req.notes, req.decision⟩

/-- The insert of `createReview` fails at the persistence layer when a
CHECK constraint is violated or the unique key
(applicant_id, reviewer_name) already exists. -/
def insertViolation (s : Store) (row : ReviewRow) : Bool :=
  !scoresOk row.scores || !decisionOk row.decision
    || s.reviews.any (fun r =>
        r.applicant_id == row.applicant_id && r.reviewer_name == row.reviewer_name)

/-- Function `ReviewService.createReview` (reviewService.ts 96-130): insert the row
(throwing when the persistence layer rejects it), then run the
FinalSelection recompute, whose own failure is swallowed, and return the
inserted row. -/
def createReview (recomputeFails : Bool) (s : Store) (req : CreateReviewRequest) :
    Except String (Store × ReviewRow) :=
  let row := reviewRowOfRequest req
  if insertViolation s row then .error "Failed to create review"
  else
    let s1 : Store := { s with reviews := s.reviews ++ [row] }
    .ok (updateFinalSelectionStatsRun recomputeFails s1 req.applicant_id, row)

/-- Request type `UpdateReviewRequest`: a patch; an outer none means the field is
absent from the update payload, an inner value is written as given
(including null). -/
structure UpdateReviewRequest where
  preference : Option (Option ℤ) := none
  pressure : Option (Option ℤ) := none
  underserved : Option (Option ℤ) := none
  leadership : Option (Option ℤ) := none
  academic : Option (Option ℤ) := none
  research : Option (Option ℤ) := none
  personal : Option (Option ℤ) := none
  notes : Option (Option String) := none
  decision : Option (Option String) := none
deriving DecidableEq, Repr

/-- Applying an update payload to a review row: each present field
replaces the stored column. -/
def applyUpdate (r : ReviewRow) (u : UpdateReviewRequest) : ReviewRow :=
  { r with
    scores := ⟨u.preference.getD r.scores.preference, u.pressure.getD r.scores.pressure,
      u.underserved.getD r.scores.underserved, u.leadership.getD r.scores.leadership,
      u.academic.getD r.scores.academic, u.research.getD r.scores.research,
      u.personal.getD r.scores.personal⟩,
    notes := u.notes.getD r.notes,
    decision := u.decision.getD r.decision }

/-- Function `ReviewService.updateReview` (reviewService.ts 135-165): update the
unique matching row; `.single()` errors when no row matches, and the
persistence layer rejects CHECK violations; on success run the swallowed
FinalSelection recompute and return the updated row. -/
def updateReview (recomputeFails : Bool) (s : Store) (applicantId reviewerName : String)
    (updates : UpdateReviewRequest) : Except String (Store × ReviewRow) :=
  match getReview s applicantId reviewerName with
  | none => .error "Failed to update review"
  | some r0 =>
    let r1 := applyUpdate r0 updates
    if !scoresOk r1.scores || !decisionOk r1.decision
    then .error "Failed to update review"
    else
      let s1 : Store := { s with reviews := s.reviews.map (fun r =>
          if r.applicant_id == applicantId && r.reviewer_name == reviewerName
          then applyUpdate r updates else r) }
      .ok (updateFinalSelectionStatsRun recomputeFails s1 applicantId, r1)

/-- Function `ReviewService.deleteReview` (reviewService.ts 168-188): delete the
matching rows (no error when none match), then run the swallowed
FinalSelection recompute. -/
def deleteReview (recomputeFails : Bool) (s : Store) (applicantId reviewerName : String) :
    Store :=
  let s1 : Store := { s with reviews := s.reviews.filter (fun r =>
      !(r.applicant_id == applicantId && r.reviewer_name == reviewerName)) }
  updateFinalSelectionStatsRun recomputeFails s1 applicantId

/-- Claim C1: for every applicant list and every non-empty reviewer list,
the distribution first filters to category `regular` and assigns the
regular applicant at position i to the reviewer at position
i mod |reviewers|; the flattened output is a permutation of the regular
applicants, so every regular applicant is assigned exactly once. -/
theorem claim_C1 (applicants : List Applicant) (reviewers : List String)
    (hne : reviewers ≠ []) :
    (∀ i (hi : i < (regularApplicants applicants).length),
      ∃ h2 : i % reviewers.length < (getApplicantDistribution applicants reviewers).length,
        ((getApplicantDistribution applicants reviewers).get
            ⟨i % reviewers.length, h2⟩).1
          = reviewers.get ⟨i % reviewers.length, Nat.mod_lt i (List.length_pos.mpr hne)⟩
        ∧ (regularApplicants applicants).get ⟨i, hi⟩
            ∈ ((getApplicantDistribution applicants reviewers).get
                ⟨i % reviewers.length, h2⟩).2)
  ∧ (((getApplicantDistribution applicants reviewers).map Prod.snd).flatten).Perm
      (regularApplicants applicants) := by
  have hn : 0 < reviewers.length := List.length_pos.mpr hne
  constructor
  · intro i hi
    have hreg : regularApplicants applicants ≠ [] := List.length_pos.mp (by omega)
    obtain ⟨h2, hget⟩ := getApplicantDistribution_get applicants reviewers hne hreg
      (i % reviewers.length) (Nat.mod_lt i hn)
    refine ⟨h2, ?_, ?_⟩
    · rw [hget]
    · rw [hget]
      refine List.mem_map.mpr ⟨(i, (regularApplicants applicants).get ⟨i, hi⟩), ?_, rfl⟩
      refine List.mem_filter.mpr ⟨?_, by simp⟩
      have he : (regularApplicants applicants).enum.get ⟨i, by simpa using hi⟩
          = (i, (regularApplicants applicants).get ⟨i, hi⟩) :=
        List.getElem_enum _ _ (by simpa using hi)
      exact he ▸ List.get_mem _ _ _
  · by_cases hreg : regularApplicants applicants = []
    · simp [getApplicantDistribution, hreg]
    · have hd : getApplicantDistribution applicants reviewers
          = reviewers.enum.map (fun p =>
              (p.2, ((regularApplicants applicants).enum.filter
                  (fun q => q.1 % reviewers.length == p.1)).map Prod.snd)) := by
        unfold getApplicantDistribution
        simp [hn, List.length_pos.mpr hreg]
      have hmaps : (getApplicantDistribution applicants reviewers).map Prod.snd
          = (List.range reviewers.length).map (fun j =>
              ((regularApplicants applicants).enum.filter
                  (fun q => q.1 % reviewers.length == j)).map Prod.snd) := by
        rw [hd, List.map_map, List.enum_eq_zip_range reviewers]
        have hfst : ((List.range reviewers.length).zip reviewers).map Prod.fst
            = List.range reviewers.length :=
          List.map_fst_zip _ _ (by simp)
        calc ((List.range reviewers.length).zip reviewers).map
              (Prod.snd ∘ fun p =>
                (p.2, ((regularApplicants applicants).enum.filter
                    (fun q => q.1 % reviewers.length == p.1)).map Prod.snd))
            = (((List.range reviewers.length).zip reviewers).map Prod.fst).map
                (fun j => ((regularApplicants applicants).enum.filter
                    (fun q => q.1 % reviewers.length == j)).map Prod.snd) := by
              rw [List.map_map]; rfl
          _ = (List.range reviewers.length).map
                (fun j => ((regularApplicants applicants).enum.filter
                    (fun q => q.1 % reviewers.length == j)).map Prod.snd) := by
              rw [hfst]
      rw [hmaps]
      exact join_residue_classes_perm _ _ hn

/-- Concrete C1 inputs: seven regular applicants. -/
def exApplicantsC1 : List Applicant :=
  [⟨"a0", "Ann", "regular", ""⟩, ⟨"a1", "Bob", "regular", ""⟩,
   ⟨"a2", "Cass", "regular", ""⟩, ⟨"a3", "Dan", "regular", ""⟩,
   ⟨"a4", "Eve", "regular", ""⟩, ⟨"a5", "Fay", "regular", ""⟩,
   ⟨"a6", "Gus", "regular", ""⟩]

/-- Witness for C1 at reviewers [A, B, C] and seven regular applicants:
the hypothesis holds, the permutation conclusion holds, and the computed
distribution gives A the applicants at indices 0, 3, 6; B those at 1, 4;
C those at 2, 5. -/
theorem claim_C1_witness :
    (["A", "B", "C"] : List String) ≠ []
  ∧ (((getApplicantDistribution exApplicantsC1 ["A", "B", "C"]).map Prod.snd).flatten).Perm
      (regularApplicants exApplicantsC1)
  ∧ getApplicantDistribution exApplicantsC1 ["A", "B", "C"]
      = [("A", [⟨"a0", "Ann", "regular", ""⟩, ⟨"a3", "Dan", "regular", ""⟩,
                ⟨"a6", "Gus", "regular", ""⟩]),
         ("B", [⟨"a1", "Bob", "regular", ""⟩, ⟨"a4", "Eve", "regular", ""⟩]),
         ("C", [⟨"a2", "Cass", "regular", ""⟩, ⟨"a5", "Fay", "regular", ""⟩])] :=
  ⟨by decide, (claim_C1 exApplicantsC1 ["A", "B", "C"] (by decide)).2, by decide⟩

/-- Claim C5: no applicant with category i-sub ever appears in any list of
the returned distribution. -/
theorem claim_C5 (applicants : List Applicant) (reviewers : List String)
    (entry : String × List Applicant) (a : Applicant)
    (hentry : entry ∈ getApplicantDistribution applicants reviewers)
    (ha : a ∈ entry.2) : a.category ≠ "i-sub" := by
  unfold getApplicantDistribution at hentry
  by_cases hcond : 0 < reviewers.length ∧ 0 < (regularApplicants applicants).length
  · rw [if_pos hcond] at hentry
    obtain ⟨p, _, hpe⟩ := List.mem_map.mp hentry
    subst hpe
    obtain ⟨q, hq, hqa⟩ := List.mem_map.mp ha
    have hq2 : q ∈ (regularApplicants applicants).enum := (List.mem_filter.mp hq).1
    have : q.2 ∈ regularApplicants applicants := by
      have := List.mem_map_of_mem Prod.snd hq2
      rwa [List.enum_map_snd] at this
    have hcat : a.category == "regular" := by
      subst hqa
      exact (List.mem_filter.mp this).2
    intro hcontra
    rw [hcontra] at hcat
    simp at hcat
  · rw [if_neg hcond] at hentry
    simp at hentry

/-- Concrete C5 input: one regular applicant. -/
def exAppC5 : Applicant := ⟨"r1", "Reg", "regular", ""⟩

/-- Witness for C5: the membership hypotheses hold at a concrete store with
one regular applicant distributed to reviewer A, and that applicant is not
i-sub. -/
theorem claim_C5_witness :
    (("A", [exAppC5]) ∈ getApplicantDistribution [exAppC5] ["A"])
  ∧ exAppC5 ∈ (("A", [exAppC5]) : String × List Applicant).2
  ∧ exAppC5.category ≠ "i-sub" :=
  ⟨by decide, by decide,
   claim_C5 [exAppC5] ["A"] ("A", [exAppC5]) exAppC5 (by decide) (by decide)⟩

/-- Counterexample for C9 as stated: with one reviewer A and one applicant
whose category is i-sub, reviewer A receives no regular applicants, yet the
returned map is entirely empty: the key A is absent rather than mapped to
an empty list. -/
theorem claim_C9_counterexample :
    getApplicantDistribution [⟨"1", "X", "i-sub", ""⟩] ["A"] = []
  ∧ distLookup (getApplicantDistribution [⟨"1", "X", "i-sub", ""⟩] ["A"]) "A" = none := by
  constructor
  · decide
  · decide

/-- Claim C9, amended: the distribution returns an empty map for an empty
reviewer list, and also returns an entirely empty map whenever there are no
regular applicants; only when at least one regular applicant exists does a
reviewer with no assigned regular applicants get its key mapped to an empty
list. -/
theorem claim_C9_amended (applicants : List Applicant) (reviewers : List String) :
    (reviewers = [] → getApplicantDistribution applicants reviewers = [])
  ∧ (regularApplicants applicants = [] → getApplicantDistribution applicants reviewers = [])
  ∧ (∀ j (hj : j < reviewers.length), regularApplicants applicants ≠ [] →
       (regularApplicants applicants).length ≤ j →
       ∃ h2 : j < (getApplicantDistribution applicants reviewers).length,
         (getApplicantDistribution applicants reviewers).get ⟨j, h2⟩
           = (reviewers.get ⟨j, hj⟩, [])) := by
  refine ⟨?_, ?_, ?_⟩
  · intro h
    simp [getApplicantDistribution, h]
  · intro h
    simp [getApplicantDistribution, h]
  · intro j hj hreg hle
    have hne : reviewers ≠ [] := List.length_pos.mp (by omega)
    obtain ⟨h2, hget⟩ := getApplicantDistribution_get applicants reviewers hne hreg j hj
    refine ⟨h2, ?_⟩
    rw [hget]
    have hnil : (regularApplicants applicants).enum.filter
        (fun q => q.1 % reviewers.length == j) = [] := by
      rw [List.filter_eq_nil_iff]
      intro q hq
      have hlt : q.1 < (regularApplicants applicants).length := List.fst_lt_of_mem_enum hq
      have : q.1 % reviewers.length = q.1 := Nat.mod_eq_of_lt (by omega)
      simp only [this]
      simp
      omega
    rw [hnil]
    rfl

/-- Witness for C9 at a concrete input: one i-sub applicant yields no
regular applicants, and the amended theorem then gives the empty map. -/
theorem claim_C9_witness :
    regularApplicants [⟨"2", "Y", "i-sub", ""⟩] = []
  ∧ getApplicantDistribution [⟨"2", "Y", "i-sub", ""⟩] ["B"] = [] :=
  ⟨by decide, (claim_C9_amended [⟨"2", "Y", "i-sub", ""⟩] ["B"]).2.1 (by decide)⟩

/-- Claim C2: the derived total score is the sum of the seven sub-scores
with null contributing 0: the service computation and the generated SQL
column agree for every combination of present and null sub-scores, and the
concrete scores 4, 3, 5, 4, 5, 3, 4 give 28. -/
theorem claim_C2 :
    (∀ r : ReviewScores, calculateTotalScore r = dbTotalScore r)
  ∧ calculateTotalScore ⟨some 4, some 3, some 5, some 4, some 5, some 3, some 4⟩ = 28
  ∧ dbTotalScore ⟨some 4, some 3, some 5, some 4, some 5, some 3, some 4⟩ = 28 := by
  refine ⟨?_, by decide, by decide⟩
  intro r
  simp [calculateTotalScore, dbTotalScore, List.foldl]

lemma reviews_updateFinalSelectionStats (s : Store) (aid : String) :
    (updateFinalSelectionStats s aid).reviews = s.reviews := by
  unfold updateFinalSelectionStats
  cases h : getFinalSelection s aid <;> simp [h]

lemma avg_specMean (rs : List ReviewRow) :
    (if 0 < rs.length
     then (rs.map (fun r => (totalScore r : ℚ))).sum / rs.length else 0)
      = specMean rs := by
  unfold specMean
  cases rs <;> simp

/-- The stats invariant the recompute step establishes for one applicant:
a FinalSelection row exists whose count is the live review count and whose
average is the rounded mean of their total scores. -/
def statsCorrect (s : Store) (applicantId : String) : Prop :=
  ∃ fs, getFinalSelection s applicantId = some fs
    ∧ fs.reviewer_count = (getReviewsForApplicant s applicantId).length
    ∧ fs.average_score = roundTo2 (specMean (getReviewsForApplicant s applicantId))

lemma updateFinalSelectionStats_spec (s : Store) (aid : String) :
    ∃ fs, getFinalSelection (updateFinalSelectionStats s aid) aid = some fs
      ∧ fs.reviewer_count = (getReviewsForApplicant s aid).length
      ∧ fs.average_score = roundTo2 (specMean (getReviewsForApplicant s aid))
      ∧ (getFinalSelection s aid = none → fs.admin_decision = "Pending") := by
  unfold updateFinalSelectionStats
  cases h : getFinalSelection s aid with
  | none =>
    simp only [h]
    refine ⟨⟨aid, "Pending",
      roundTo2 (specMean (getReviewsForApplicant s aid)),
      (getReviewsForApplicant s aid).length⟩, ?_, rfl, rfl, fun _ => rfl⟩
    unfold getFinalSelection at h ⊢
    simp only [List.find?_append, h, Option.none_or]
    simp [avg_specMean]
  | some fs0 =>
    simp only [h]
    unfold getFinalSelection at h
    have hp : fs0.applicant_id = aid := by
      have hq := List.find?_some h
      simpa using hq
    refine ⟨{ fs0 with
        average_score := roundTo2 (specMean (getReviewsForApplicant s aid)),
        reviewer_count := (getReviewsForApplicant s aid).length }, ?_, rfl, rfl, ?_⟩
    · unfold getFinalSelection
      have hcomp : ((fun f : FinalSelectionRow => f.applicant_id == aid) ∘
          (fun f : FinalSelectionRow =>
            if f.applicant_id == aid then
              { f with
                average_score := roundTo2
                  (if 0 < (getReviewsForApplicant s aid).length
                   then ((getReviewsForApplicant s aid).map
                      (fun r => (totalScore r : ℚ))).sum / (getReviewsForApplicant s aid).length
                   else 0),
                reviewer_count := (getReviewsForApplicant s aid).length }
            else f))
          = fun f : FinalSelectionRow => f.applicant_id == aid := by
        funext f
        by_cases hf : f.applicant_id = aid <;> simp [hf]
      simp only [List.find?_map, hcomp, h, Option.map_some]
      simp [hp, avg_specMean]
    · intro hn
      simp at hn

/-- Counterexample inputs for C3: two existing reviews for applicant a
with total scores 28 and 20, and a create request adding a third with
total 20, so that the exact mean 68/3 is not representable in two decimal
places. -/
def exStoreCx : Store :=
  ⟨[], [],
   [⟨"a", "R1", ⟨some 4, some 3, some 5, some 4, some 5, some 3, some 4⟩, none, some "Maybe"⟩,
    ⟨"a", "R2", ⟨some 3, some 3, some 3, some 3, some 3, some 3, some 2⟩, none, some "Maybe"⟩],
   []⟩

/-- The request the C3 counterexample creates. -/
def exReqCx : CreateReviewRequest :=
  ⟨"a", "R3", ⟨some 3, some 3, some 3, some 3, some 3, some 3, some 2⟩, none, some "Maybe"⟩

/-- The row that request inserts. -/
def exRowCx : ReviewRow := reviewRowOfRequest exReqCx

/-- The store after the C3 counterexample create: the recompute stored the
rounded value 22.67, not the exact mean. -/
def exStoreCxAfter : Store :=
  ⟨[], [],
   [⟨"a", "R1", ⟨some 4, some 3, some 5, some 4, some 5, some 3, some 4⟩, none, some "Maybe"⟩,
    ⟨"a", "R2", ⟨some 3, some 3, some 3, some 3, some 3, some 3, some 2⟩, none, some "Maybe"⟩,
    exRowCx],
   [⟨"a", "Pending", 2267 / 100, 3⟩]⟩

/-- Counterexample for C3 as stated: after a successful review create the
stored average is 22.67 while the exact arithmetic mean of the three total
scores is 68/3 = 22.666..., so the stored value does not equal the mean
(the source stores `parseFloat(averageScore.toFixed(2))`). -/
theorem claim_C3_counterexample :
    createReview false exStoreCx exReqCx = .ok (exStoreCxAfter, exRowCx)
  ∧ (getFinalSelection exStoreCxAfter "a").map FinalSelectionRow.average_score
      = some (2267 / 100 : ℚ)
  ∧ specMean (getReviewsForApplicant exStoreCxAfter "a") = 68 / 3
  ∧ ((2267 : ℚ) / 100) ≠ 68 / 3 := by
  refine ⟨?_, ?_, ?_, by norm_num⟩
  · norm_num [createReview, updateFinalSelectionStatsRun, updateFinalSelectionStats,
      getFinalSelection, getReviewsForApplicant, totalScore, dbTotalScore, roundTo2,
      specMean, exStoreCx, exReqCx, exRowCx, exStoreCxAfter, reviewRowOfRequest]
    intro hbad
    exact absurd hbad (by decide)
  · norm_num [getFinalSelection, exStoreCxAfter]
  · norm_num [specMean, getReviewsForApplicant, totalScore, dbTotalScore,
      exStoreCxAfter, exRowCx, exReqCx, reviewRowOfRequest]
    decide

/-- Claim C3, amended: after any successful review create, update or
delete for applicant X, the FinalSelection row for X exists, its
reviewer_count is the live count of reviews for X, and its average_score
is the arithmetic mean of their total scores rounded to two decimal places
(0 when no reviews remain); a row with admin_decision Pending is created
when none exists, and deleting the last review resets the average to 0
without deleting the row. -/
theorem claim_C3 (s : Store) (req : CreateReviewRequest)
    (aid reviewerName : String) (u : UpdateReviewRequest)
    (s1 s2 : Store) (r1 r2 : ReviewRow) :
    (createReview false s req = .ok (s1, r1) →
       statsCorrect s1 req.applicant_id
       ∧ (getFinalSelection s req.applicant_id = none →
           ∃ fs, getFinalSelection s1 req.applicant_id = some fs
             ∧ fs.admin_decision = "Pending"))
  ∧ (updateReview false s aid reviewerName u = .ok (s2, r2) →
       statsCorrect s2 aid
       ∧ (getFinalSelection s aid = none →
           ∃ fs, getFinalSelection s2 aid = some fs ∧ fs.admin_decision = "Pending"))
  ∧ (statsCorrect (deleteReview false s aid reviewerName) aid
       ∧ (getFinalSelection s aid = none →
           ∃ fs, getFinalSelection (deleteReview false s aid reviewerName) aid = some fs
             ∧ fs.admin_decision = "Pending")
       ∧ (getReviewsForApplicant (deleteReview false s aid reviewerName) aid = [] →
           ∃ fs, getFinalSelection (deleteReview false s aid reviewerName) aid = some fs
             ∧ fs.average_score = 0 ∧ fs.reviewer_count = 0)) := by
  have hround0 : roundTo2 (specMean ([] : List ReviewRow)) = 0 := by
    unfold specMean roundTo2
    norm_num
  refine ⟨?_, ?_, ?_⟩
  · intro h
    unfold createReview at h
    by_cases hv : insertViolation s (reviewRowOfRequest req) = true
    · simp [hv] at h
    · simp only [hv, if_false, Bool.false_eq_true, reduceIte,
        Except.ok.injEq, Prod.mk.injEq] at h
      obtain ⟨hs1, _⟩ := h
      subst hs1
      obtain ⟨fs, hfs, hc, ha, hpend⟩ := updateFinalSelectionStats_spec
        { s with reviews := s.reviews ++ [reviewRowOfRequest req] } req.applicant_id
      have hrev : getReviewsForApplicant
          (updateFinalSelectionStats
            { s with reviews := s.reviews ++ [reviewRowOfRequest req] } req.applicant_id)
          req.applicant_id
          = getReviewsForApplicant
              { s with reviews := s.reviews ++ [reviewRowOfRequest req] } req.applicant_id := by
        unfold getReviewsForApplicant
        rw [reviews_updateFinalSelectionStats]
      refine ⟨⟨fs, ?_, ?_, ?_⟩, fun hn => ⟨fs, ?_, hpend hn⟩⟩
      · simpa [updateFinalSelectionStatsRun] using hfs
      · simpa [updateFinalSelectionStatsRun, hrev] using hc
      · simpa [updateFinalSelectionStatsRun, hrev] using ha
      · simpa [updateFinalSelectionStatsRun] using hfs
  · intro h
    unfold updateReview at h
    cases hr0 : getReview s aid reviewerName with
    | none => rw [hr0] at h; simp at h
    | some r0 =>
      rw [hr0] at h
      by_cases hv : (!scoresOk (applyUpdate r0 u).scores
          || !decisionOk (applyUpdate r0 u).decision) = true
      · simp [hv] at h
      · simp only [hv, if_false, Bool.false_eq_true, reduceIte,
          Except.ok.injEq, Prod.mk.injEq] at h
        obtain ⟨hs2, _⟩ := h
        subst hs2
        set sU : Store := { s with reviews := s.reviews.map (fun r =>
            if r.applicant_id == aid && r.reviewer_name == reviewerName
            then applyUpdate r u else r) } with hsU
        obtain ⟨fs, hfs, hc, ha, hpend⟩ := updateFinalSelectionStats_spec sU aid
        have hrev : getReviewsForApplicant (updateFinalSelectionStats sU aid) aid
            = getReviewsForApplicant sU aid := by
          unfold getReviewsForApplicant
          rw [reviews_updateFinalSelectionStats]
        refine ⟨⟨fs, ?_, ?_, ?_⟩, fun hn => ⟨fs, ?_, hpend ?_⟩⟩
        · simpa [updateFinalSelectionStatsRun] using hfs
        · simpa [updateFinalSelectionStatsRun, hrev] using hc
        · simpa [updateFinalSelectionStatsRun, hrev] using ha
        · simpa [updateFinalSelectionStatsRun] using hfs
        · unfold getFinalSelection at hn ⊢
          simpa using hn
  · set sD : Store := { s with reviews := s.reviews.filter (fun r =>
        !(r.applicant_id == aid && r.reviewer_name == reviewerName)) } with hsD
    obtain ⟨fs, hfs, hc, ha, hpend⟩ := updateFinalSelectionStats_spec sD aid
    have hrev : getReviewsForApplicant (updateFinalSelectionStats sD aid) aid
        = getReviewsForApplicant sD aid := by
      unfold getReviewsForApplicant
      rw [reviews_updateFinalSelectionStats]
    have hdel : deleteReview false s aid reviewerName = updateFinalSelectionStats sD aid := rfl
    have hfs2 : getFinalSelection (deleteReview false s aid reviewerName) aid = some fs := by
      rw [hdel]; exact hfs
    have hrevD : getReviewsForApplicant (deleteReview false s aid reviewerName) aid
        = getReviewsForApplicant sD aid := by
      rw [hdel]; exact hrev
    refine ⟨⟨fs, hfs2, ?_, ?_⟩, fun hn => ⟨fs, hfs2, hpend ?_⟩, fun hnil => ⟨fs, hfs2, ?_, ?_⟩⟩
    · rw [hrevD]; exact hc
    · rw [hrevD]; exact ha
    · unfold getFinalSelection at hn ⊢
      simpa using hn
    · rw [hrevD] at hnil
      rw [ha, hnil, hround0]
    · rw [hrevD] at hnil
      rw [hc, hnil]
      rfl

/-- Concrete C3 witness inputs: an empty store and a create request. -/
def exStoreC3 : Store := ⟨[], [], [], []⟩

/-- The create request of the C3 witness (total score 28). -/
def exReqC3 : CreateReviewRequest :=
  ⟨"a1", "R1", ⟨some 4, some 3, some 5, some 4, some 5, some 3, some 4⟩, none, some "Maybe"⟩

/-- The row that request inserts. -/
def exRowC3 : ReviewRow := reviewRowOfRequest exReqC3

/-- The store after the C3 witness create. -/
def exStoreC3After : Store := ⟨[], [], [exRowC3], [⟨"a1", "Pending", 28, 1⟩]⟩

/-- Witness for C3 at a concrete input: creating the first review for a1
in an empty store yields a Pending FinalSelection with count 1 and the
rounded mean 28. -/
theorem claim_C3_witness :
    createReview false exStoreC3 exReqC3 = .ok (exStoreC3After, exRowC3)
  ∧ statsCorrect exStoreC3After "a1" := by
  have hcr : createReview false exStoreC3 exReqC3 = .ok (exStoreC3After, exRowC3) := by
    norm_num [createReview, updateFinalSelectionStatsRun, updateFinalSelectionStats,
      getFinalSelection, getReviewsForApplicant, totalScore, dbTotalScore, roundTo2,
      specMean, exStoreC3, exReqC3, exRowC3, exStoreC3After, reviewRowOfRequest]
    intro hbad
    exact absurd hbad (by decide)
  exact ⟨hcr,
    ((claim_C3 exStoreC3 exReqC3 "a1" "R1" {} exStoreC3After exStoreC3After
        exRowC3 exRowC3).1 hcr).1⟩

/-- Claim C8: when the Review write itself succeeds but the FinalSelection
recompute step fails with a persistence-layer error (the `true` flag), the
error is swallowed: each operation still returns success with the Review
write persisted, and only the FinalSelection table is left untouched
(stale) rather than the write being rolled back. -/
theorem claim_C8 (s : Store) (req : CreateReviewRequest)
    (aid reviewerName : String) (u : UpdateReviewRequest) (r0 : ReviewRow) :
    (insertViolation s (reviewRowOfRequest req) = false →
      createReview true s req
        = .ok ({ s with reviews := s.reviews ++ [reviewRowOfRequest req] },
               reviewRowOfRequest req))
  ∧ (getReview s aid reviewerName = some r0 →
      (!scoresOk (applyUpdate r0 u).scores || !decisionOk (applyUpdate r0 u).decision) = false →
      updateReview true s aid reviewerName u
        = .ok ({ s with reviews := s.reviews.map (fun r =>
            if r.applicant_id == aid && r.reviewer_name == reviewerName
            then applyUpdate r u else r) }, applyUpdate r0 u))
  ∧ deleteReview true s aid reviewerName
      = { s with reviews := s.reviews.filter (fun r =>
          !(r.applicant_id == aid && r.reviewer_name == reviewerName)) } := by
  refine ⟨?_, ?_, ?_⟩
  · intro hv
    unfold createReview
    simp [hv, updateFinalSelectionStatsRun]
  · intro h0 hv
    unfold updateReview
    rw [h0]
    simp [hv, updateFinalSelectionStatsRun]
  · unfold deleteReview
    simp [updateFinalSelectionStatsRun]

/-- Concrete C8 store with one existing review. -/
def exStoreC8 : Store :=
  ⟨[], [], [⟨"a1", "R1", ⟨some 4, none, none, none, none, none, none⟩, none, some "Maybe"⟩], []⟩

/-- The create request of the C8 witness (a second reviewer for a1). -/
def exReqC8 : CreateReviewRequest :=
  ⟨"a1", "R2", ⟨some 5, none, none, none, none, none, none⟩, none, none⟩

/-- Witness for C8: with the recompute step failing, the create still
returns success with the row appended and the FinalSelection table left
unchanged. -/
theorem claim_C8_witness :
    insertViolation exStoreC8 (reviewRowOfRequest exReqC8) = false
  ∧ createReview true exStoreC8 exReqC8
      = .ok ({ exStoreC8 with reviews := exStoreC8.reviews ++ [reviewRowOfRequest exReqC8] },
             reviewRowOfRequest exReqC8) :=
  ⟨by decide,
   (claim_C8 exStoreC8 exReqC8 "a1" "R1" {}
      ⟨"a1", "R1", ⟨some 4, none, none, none, none, none, none⟩, none, some "Maybe"⟩).1
     (by decide)⟩

/-- The `{completed, total}` pair returned by
`ProgressService.getOverallProgress`. -/
structure ProgressInfo where
  completed : ℕ
  total : ℕ
deriving DecidableEq, Repr

/-- Function `ProgressService.getOverallProgress` (progressService.ts 10-56):
count all applicants, count reviews whose decision is not null, count all
reviewers, and return completed together with the expected-full-coverage
total `totalApplicants * totalReviewers`. -/
def getOverallProgress (s : Store) : ProgressInfo :=
  let totalApplicants := s.applicants.length
  let completedReviews := (s.reviews.filter (fun r => r.decision.isSome)).length
  let totalReviewers := s.reviewers.length
  let totalExpectedReviews := totalApplicants * totalReviewers
  ⟨completedReviews, totalExpectedReviews⟩

/-- Concrete C4 store: 10 applicants, 3 reviewers, 12 decided reviews
spread over arbitrary pairings (not full coverage). -/
def exStoreC4 : Store :=
  ⟨(List.range 10).map (fun i => ⟨toString i, toString i, "regular", ""⟩),
   ["R1", "R2", "R3"],
   (List.range 12).map (fun i =>
     ⟨toString (i % 10), if i < 10 then "R1" else "R2", {}, none, some "Maybe"⟩),
   []⟩

/-- Claim C4: overall progress has total = applicants times reviewers (not
the count of review rows) and completed = count of reviews with non-null
decision regardless of pairing; with 10 applicants, 3 reviewers and 12
decided reviews the result is completed 12 of total 30. -/
theorem claim_C4 :
    (∀ s : Store,
      (getOverallProgress s).total = s.applicants.length * s.reviewers.length
      ∧ (getOverallProgress s).completed
          = (s.reviews.filter (fun r => r.decision.isSome)).length)
  ∧ exStoreC4.applicants.length = 10
  ∧ exStoreC4.reviewers.length = 3
  ∧ exStoreC4.reviews.length = 12
  ∧ (∀ r ∈ exStoreC4.reviews, r.decision.isSome)
  ∧ getOverallProgress exStoreC4 = ⟨12, 30⟩ :=
  ⟨fun _ => ⟨rfl, rfl⟩, by decide, by decide, by decide, by decide, by decide⟩

/-- The POST /api/reviews handler (routes/reviews.ts 98-132) as the pair
of HTTP status and resulting store: 400 when an id is missing (falsy),
409 when the review already exists, 201 on success, 500 when
`createReview` throws. -/
def postReviews (recomputeFails : Bool) (s : Store) (req : CreateReviewRequest) :
    ℕ × Store :=
  if req.applicant_id == "" || req.reviewer_name == "" then (400, s)
  else
    match getReview s req.applicant_id req.reviewer_name with
    | some _ => (409, s)
    | none =>
      match createReview recomputeFails s req with
      | .ok (s1, _) => (201, s1)
      | .error _ => (500, s)

/-- The C6 request: pressure = 6, outside the CHECK range. -/
def exReqC6 : CreateReviewRequest :=
  ⟨"a1", "R1", ⟨some 4, some 6, none, none, none, none, none⟩, none, none⟩

/-- Counterexample for C6 as stated: submitting a review with pressure 6
is rejected (no row is created) but with HTTP status 500 from the failed
create, not the 400 validation status the error envelope assigns to
validation errors. -/
theorem claim_C6_counterexample :
    scoreInRange (some 6) = false
  ∧ postReviews false ⟨[], [], [], []⟩ exReqC6 = (500, ⟨[], [], [], []⟩)
  ∧ (postReviews false ⟨[], [], [], []⟩ exReqC6).1 ≠ 400
  ∧ (postReviews false ⟨[], [], [], []⟩ exReqC6).2.reviews = [] :=
  ⟨by decide, by decide, by decide, by decide⟩

/-- Claim C6, amended: a submission whose ids are present, that is not a
duplicate, and that carries a sub-score outside 1-5 is rejected by the
persistence layer CHECK constraint and surfaced as a 500 create-failure
response, not a 400 validation error; the store is unchanged, so no Review
row is created or modified. -/
theorem claim_C6 (recomputeFails : Bool) (s : Store) (req : CreateReviewRequest)
    (h1 : (req.applicant_id == "" || req.reviewer_name == "") = false)
    (h2 : getReview s req.applicant_id req.reviewer_name = none)
    (h3 : scoresOk req.scores = false) :
    postReviews recomputeFails s req = (500, s) := by
  unfold postReviews
  rw [h1, h2]
  have hviol : insertViolation s (reviewRowOfRequest req) = true := by
    unfold insertViolation reviewRowOfRequest
    simp [h3]
  simp [createReview, hviol]

/-- Witness for C6: the hypotheses hold for the pressure-6 request against
the empty store, and the response is a 500 with the store unchanged. -/
theorem claim_C6_witness :
    ((exReqC6.applicant_id == "" || exReqC6.reviewer_name == "") = false)
  ∧ getReview ⟨[], [], [], []⟩ exReqC6.applicant_id exReqC6.reviewer_name = none
  ∧ scoresOk exReqC6.scores = false
  ∧ postReviews false ⟨[], [], [], []⟩ exReqC6 = (500, ⟨[], [], [], []⟩) :=
  ⟨by decide, by decide, by decide,
   claim_C6 false ⟨[], [], [], []⟩ exReqC6 (by decide) (by decide) (by decide)⟩

/-- One element of the result of `ProgressService.getProgressByReviewer`. -/
structure ReviewerStats where
  name : String
  assigned : ℕ
  completed : ℕ
  percentage : ℤ
deriving DecidableEq, Repr

/-- Stable insertion of one element under a Boolean comparison. -/
def sortInsert {α : Type} (le : α → α → Bool) (x : α) : List α → List α
  | [] => [x]
  | y :: ys => if le x y then x :: y :: ys else y :: sortInsert le x ys

/-- Stable insertion sort, modelling the ECMAScript stable
`Array.prototype.sort` with a comparator (the engine-internal algorithm is
unspecified, only the ordering and stability are). -/
def insertionSort {α : Type} (le : α → α → Bool) : List α → List α
  | [] => []
  | x :: xs => sortInsert le x (insertionSort le xs)

lemma sortInsert_perm {α : Type} (le : α → α → Bool) (x : α) (l : List α) :
    (sortInsert le x l).Perm (x :: l) := by
  induction l with
  | nil => exact List.Perm.refl _
  | cons y ys ih =>
    unfold sortInsert
    by_cases h : le x y = true
    · rw [if_pos h]
    · rw [if_neg h]
      exact (ih.cons y).trans (List.Perm.swap x y ys)

lemma insertionSort_perm {α : Type} (le : α → α → Bool) (l : List α) :
    (insertionSort le l).Perm l := by
  induction l with
  | nil => exact List.Perm.refl _
  | cons x xs ih =>
    exact (sortInsert_perm le x (insertionSort le xs)).trans (ih.cons x)

/-- Function `ProgressService.getProgressByReviewer` (progressService.ts 61-129):
empty list when there are no reviewers; otherwise one stats entry per
reviewer with assigned = total applicant count, completed = that
reviews by that reviewer with non-null decision, and percentage =
`Math.round((completed / assigned) * 100)` (0 when assigned is 0), the
list sorted by percentage descending. `Math.round x` is the integer
`⌊x + 1/2⌋`, which is the Mathlib `round`. -/
def getProgressByReviewer (s : Store) : List ReviewerStats :=
  if s.reviewers = [] then []
  else
    let totalApplicants := s.applicants.length
    let stats := s.reviewers.map (fun name =>
      let reviewerReviews := s.reviews.filter (fun r => r.reviewer_name == name)
      let completed := (reviewerReviews.filter (fun r => r.decision.isSome)).length
      let assigned := totalApplicants
      let percentage : ℤ :=
        if 0 < assigned then round (((completed : ℚ) / assigned) * 100) else 0
      ⟨name, assigned, completed, percentage⟩)
    insertionSort (fun a b => decide (b.percentage ≤ a.percentage)) stats

/-- Claim C7: every entry of getProgressByReviewer has assigned equal to
the total applicant count (not the round-robin partition size), completed
equal to the count of the reviews by that reviewer with non-null decision, and
percentage equal to round(completed / assigned * 100) with 0 when
assigned is 0. -/
theorem claim_C7 (s : Store) (st : ReviewerStats)
    (hst : st ∈ getProgressByReviewer s) :
    st.assigned = s.applicants.length
  ∧ st.completed = (s.reviews.filter
      (fun r => r.reviewer_name == st.name && r.decision.isSome)).length
  ∧ st.percentage = (if 0 < st.assigned
      then round (((st.completed : ℚ) / st.assigned) * 100) else 0) := by
  unfold getProgressByReviewer at hst
  by_cases hrev : s.reviewers = []
  · rw [if_pos hrev] at hst
    simp at hst
  · rw [if_neg hrev] at hst
    obtain ⟨name, hname, hmk⟩ :=
      List.mem_map.mp ((insertionSort_perm _ _).mem_iff.mp hst)
    subst hmk
    refine ⟨rfl, ?_, rfl⟩
    show ((s.reviews.filter (fun r => r.reviewer_name == name)).filter
        (fun r => r.decision.isSome)).length = _
    rw [List.filter_filter]
    have hcomm : ∀ r ∈ s.reviews,
        (r.decision.isSome && (r.reviewer_name == name))
          = ((r.reviewer_name == name) && r.decision.isSome) :=
      fun r _ => Bool.and_comm _ _
    rw [List.filter_congr hcomm]

/-- Concrete C7 store: two applicants, one reviewer, one decided review. -/
def exStoreC7 : Store :=
  ⟨[⟨"1", "P", "regular", ""⟩, ⟨"2", "Q", "regular", ""⟩], ["R1"],
   [⟨"1", "R1", {}, none, some "Maybe"⟩], []⟩

/-- The single stats entry getProgressByReviewer returns on exStoreC7. -/
def exStatC7 : ReviewerStats := ⟨"R1", 2, 1, 50⟩

/-- Witness for C7: the membership hypothesis holds concretely (R1 has 2
assigned, 1 completed, percentage round(50) = 50) and the claimed field
equations follow. -/
theorem claim_C7_witness :
    exStatC7 ∈ getProgressByReviewer exStoreC7
  ∧ (exStatC7.assigned = exStoreC7.applicants.length
     ∧ exStatC7.completed = (exStoreC7.reviews.filter
         (fun r => r.reviewer_name == exStatC7.name && r.decision.isSome)).length
     ∧ exStatC7.percentage = (if 0 < exStatC7.assigned
         then round (((exStatC7.completed : ℚ) / exStatC7.assigned) * 100) else 0)) := by
  have hmem : exStatC7 ∈ getProgressByReviewer exStoreC7 := by
    have hlist : getProgressByReviewer exStoreC7 = [exStatC7] := by
      rw [getProgressByReviewer]
      norm_num [exStoreC7, insertionSort, sortInsert, exStatC7, round_eq]
    rw [hlist]
    exact List.mem_singleton.mpr rfl
  exact ⟨hmem, claim_C7 exStoreC7 exStatC7 hmem⟩

/-- The record returned by `ProgressService.getDashboardSummary`. -/
structure DashboardSummary where
  totalApplicants : ℕ
  totalReviewers : ℕ
  completedReviews : ℕ
  pendingReviews : ℤ
  finalizedDecisions : ℕ
  averageScore : ℚ
deriving DecidableEq, Repr

/-- Function `ProgressService.getDashboardSummary` (progressService.ts 269-344):
counts of applicants, reviewers, decided reviews and non-Pending final
selections; the mean of `total_score` over all reviews (the generated
column is never null, so the non-null filter keeps every row) rounded to
two decimals; and `pendingReviews = Math.max(0, expected - completed)`
with `expected = totalApplicants * totalReviewers`. -/
def getDashboardSummary (s : Store) : DashboardSummary :=
  let totalApplicants := s.applicants.length
  let totalReviewers := s.reviewers.length
  let completedReviews := (s.reviews.filter (fun r => r.decision.isSome)).length
  let finalizedDecisions :=
    (s.finalSelections.filter (fun f => !(f.admin_decision == "Pending"))).length
  let validScores := s.reviews.map (fun r => (totalScore r : ℚ))
  let averageScore : ℚ :=
    if 0 < validScores.length then validScores.sum / validScores.length else 0
  let expectedTotalReviews := totalApplicants * totalReviewers
  let pendingReviews : ℤ := max 0 ((expectedTotalReviews : ℤ) - (completedReviews : ℤ))
  ⟨totalApplicants, totalReviewers, completedReviews, pendingReviews,
   finalizedDecisions, roundTo2 averageScore⟩

/-- Concrete C10 store in which completed reviews exceed the expected
full-coverage total (a reviewer was removed while both decided reviews
remain): 1 applicant, 1 reviewer, 2 decided reviews. -/
def exStoreC10 : Store :=
  ⟨[⟨"1", "P", "regular", ""⟩], ["R1"],
   [⟨"1", "R1", {}, none, some "Maybe"⟩, ⟨"1", "R2", {}, none, some "Maybe"⟩], []⟩

/-- Claim C10: pendingReviews equals
max(0, totalApplicants * totalReviewers - completedReviews), hence is
never negative, including when completed reviews exceed the expected
total. -/
theorem claim_C10 :
    (∀ s : Store,
      (getDashboardSummary s).pendingReviews
        = max 0 ((s.applicants.length * s.reviewers.length : ℤ)
            - ((s.reviews.filter (fun r => r.decision.isSome)).length : ℤ))
      ∧ 0 ≤ (getDashboardSummary s).pendingReviews)
  ∧ (exStoreC10.applicants.length * exStoreC10.reviewers.length : ℤ) = 1
  ∧ ((exStoreC10.reviews.filter (fun r => r.decision.isSome)).length : ℤ) = 2
  ∧ (getDashboardSummary exStoreC10).pendingReviews = 0 :=
  ⟨fun s => ⟨rfl, le_max_left 0 _⟩, by decide, by decide, by decide⟩

end Urology

